import Mathlib

/-!
Verification development for the cgrapht directed-graph library.

The embedding follows the C++ sources:
* `src/headers/cgrapht/models.hpp` — the `Result`/`ErrorType` model (namespace `cgrapht`);
* `src/headers/cgrapht/graph.hpp` — the `DirectedGraph` container (namespace `cgrapht`);
* `src/headers/models.hpp`, `src/headers/graph.hpp` — a stale legacy copy of the same
  classes; the parts that differ from the current headers are embedded in
  namespace `cgrapht.legacy`.

`std::size_t` hash values are modelled as `Nat` (hashes are opaque keys here, no
arithmetic is performed on them); `std::unordered_map<std::size_t, T>` is modelled as
`Nat → Option T`; `std::unordered_set<std::size_t>` as `Finset Nat`.  C++ exceptions
(`std::runtime_error` thrown by the `Result` accessors, `std::bad_variant_access` /
`std::out_of_range` thrown by `std::get` / `at`) are modelled with `Except Fault`.
-/

namespace cgrapht

/-- Non-recoverable C++ faults: `throw std::runtime_error(msg)`, the
`std::bad_variant_access` raised by `std::get` on a variant holding a different
alternative, and the `std::out_of_range` raised by `unordered_map::at`. -/
inductive Fault where
  | runtime_error (msg : String)
  | bad_variant_access
  | out_of_range
deriving DecidableEq, Repr

/-- Decidable equality of modelled call outcomes, so that concrete runs can be
checked by `decide`. -/
instance {ε α : Type} [DecidableEq ε] [DecidableEq α] : DecidableEq (Except ε α)
  | Except.ok x, Except.ok y =>
      if h : x = y then Decidable.isTrue (congrArg Except.ok h)
      else Decidable.isFalse (fun hh => h (Except.ok.inj hh))
  | Except.ok _, Except.error _ => Decidable.isFalse (fun hh => Except.noConfusion hh)
  | Except.error _, Except.ok _ => Decidable.isFalse (fun hh => Except.noConfusion hh)
  | Except.error x, Except.error y =>
      if h : x = y then Decidable.isTrue (congrArg Except.error h)
      else Decidable.isFalse (fun hh => h (Except.error.inj hh))

/-- The state of `std::variant<std::monostate, SUCCESS, ERROR>` used inside `Result`
(`src/headers/cgrapht/models.hpp`). -/
inductive Variant (S E : Type) where
  | monostate
  | succ (s : S)
  | err (e : E)
deriving DecidableEq, Repr

/-- `cgrapht::Result` from `src/headers/cgrapht/models.hpp`: a variant plus the
`is_success` flag.  Equality (`operator==`) is field-wise, which is exactly the
derived structure equality. -/
structure Result (S E : Type) where
  result : Variant S E
  is_success : Bool
deriving DecidableEq, Repr

/-- `Result::success`: stores the payload in the variant, `is_success` keeps its
default value `true`. -/
def Result.success {S E : Type} (s : S) : Result S E :=
  { result := Variant.succ s, is_success := true }

/-- `Result::error`: stores the error in the variant and sets `is_success := false`. -/
def Result.error {S E : Type} (e : E) : Result S E :=
  { result := Variant.err e, is_success := false }

/-- `Result::is_ok`. -/
def Result.is_ok {S E : Type} (r : Result S E) : Bool :=
  r.is_success

/-- `Result::get_ok` (current header): returns `std::get<SUCCESS>(result)` when
`is_success`, otherwise throws `std::runtime_error`. -/
def Result.get_ok {S E : Type} (r : Result S E) : Except Fault S :=
  if r.is_success then
    match r.result with
    | Variant.succ s => Except.ok s
    | _ => Except.error Fault.bad_variant_access
  else
    Except.error (Fault.runtime_error "Cannot get ok value from error result")

/-- `Result::consume_ok` (current header, `src/headers/cgrapht/models.hpp` lines
102–109): moves out the success payload when `is_success`, otherwise throws. -/
def Result.consume_ok {S E : Type} (r : Result S E) : Except Fault S :=
  if r.is_success then
    match r.result with
    | Variant.succ s => Except.ok s
    | _ => Except.error Fault.bad_variant_access
  else
    Except.error (Fault.runtime_error "Cannot consume ok value from error result")

/-- `Result::get_error` (current header). -/
def Result.get_error {S E : Type} (r : Result S E) : Except Fault E :=
  if r.is_success then
    Except.error (Fault.runtime_error "Cannot get error value from success result")
  else
    match r.result with
    | Variant.err e => Except.ok e
    | _ => Except.error Fault.bad_variant_access

/-- `Result::consume_error` (current header, lines 124–131): moves out the error
payload when `!is_success`, otherwise throws. -/
def Result.consume_error {S E : Type} (r : Result S E) : Except Fault E :=
  if r.is_success then
    Except.error (Fault.runtime_error "Cannot consume error value from success result")
  else
    match r.result with
    | Variant.err e => Except.ok e
    | _ => Except.error Fault.bad_variant_access

/-- `cgrapht::ErrorType` from `src/headers/cgrapht/models.hpp`. -/
inductive ErrorType where
  | INVALID_ARGUMENT
  | ABSENT_VERTX
  | ABSENT_EDGE
  | EDGE_ALREADY_EXISTS
  | VERTEX_NOT_FREE
  | INVALID_OPERATION
  | OUT_OF_RANGE
  | UNKNOWN
deriving DecidableEq, Repr

/-- `cgrapht::Edge` (`src/headers/cgrapht/graph.hpp`): the edge record stored in the
edge table.  `operator==` compares all three fields, i.e. derived equality. -/
structure Edge (E : Type) where
  from_id : Nat
  to_id : Nat
  edge : E
deriving DecidableEq, Repr

/-- `cgrapht::EdgeSet`: the per-vertex incoming/outgoing edge-id sets. -/
structure EdgeSet where
  incoming_edges : Finset Nat
  outgoing_edges : Finset Nat
deriving DecidableEq

/-- The default-constructed `EdgeSet{}`: both sets empty. -/
def EdgeSet.default : EdgeSet :=
  { incoming_edges := ∅, outgoing_edges := ∅ }

/-- The private state of `cgrapht::DirectedGraph<V, E>`: the vertex table, the edge
table and the adjacency index, each an `unordered_map` keyed by `std::size_t`. -/
structure DirectedGraph (V E : Type) where
  vertex_index : Nat → Option V
  edge_index : Nat → Option (Edge E)
  adjacency_list : Nat → Option EdgeSet

/-- A default-constructed `DirectedGraph`: all three maps empty. -/
def DirectedGraph.empty {V E : Type} : DirectedGraph V E :=
  { vertex_index := fun _ => none, edge_index := fun _ => none,
    adjacency_list := fun _ => none }

/-- `unordered_map::emplace` / insertion of a binding `k ↦ v` (in the source every
insertion is guarded by a `contains` check, so plain overwrite is faithful). -/
def mapInsert {α : Type} (m : Nat → Option α) (k : Nat) (v : α) : Nat → Option α :=
  fun x => if x = k then some v else m x

/-- `unordered_map::erase`. -/
def mapErase {α : Type} (m : Nat → Option α) (k : Nat) : Nat → Option α :=
  fun x => if x = k then none else m x

/-- `adjacency_list[k]` followed by a mutation `f` of the referenced `EdgeSet`:
`operator[]` default-constructs the entry when absent, then the entry is updated. -/
def adjUpdate (m : Nat → Option EdgeSet) (k : Nat) (f : EdgeSet → EdgeSet) :
    Nat → Option EdgeSet :=
  mapInsert m k (f ((m k).getD EdgeSet.default))

/-- The element-wise image of `unordered_map::at` over a set of edge ids, as used by
the `std::views::transform` pipelines in the query functions: if every id is present
in the edge table the set of `f`-projections is produced, otherwise `at` throws
`std::out_of_range`.  (The `getD 0` default is never reached under the guard.) -/
def atImage {E : Type} (m : Nat → Option (Edge E)) (f : Edge E → Nat) (s : Finset Nat) :
    Except Fault (Finset Nat) :=
  if ∀ eid ∈ s, (m eid).isSome then
    Except.ok (s.image fun eid => ((m eid).map f).getD 0)
  else
    Except.error Fault.out_of_range

section GraphOps

variable {V E : Type} (hashV : V → Nat) (hashE : E → Nat)

/-- `DirectedGraph::add_vertex` (`src/headers/cgrapht/graph.hpp` lines 159–166):
computes `vertex_id = hash(v)`, inserts the payload and an empty adjacency entry when
the id is absent, and always returns success with the id.  The mutated state is
returned alongside the `Result`. -/
def add_vertex (g : DirectedGraph V E) (v : V) :
    Result Nat ErrorType × DirectedGraph V E :=
  let vertex_id := hashV v
  if (g.vertex_index vertex_id).isSome then
    (Result.success vertex_id, g)
  else
    (Result.success vertex_id,
      { g with
        vertex_index := mapInsert g.vertex_index vertex_id v,
        adjacency_list := mapInsert g.adjacency_list vertex_id EdgeSet.default })

/-- `DirectedGraph::delete_vertex` (lines 168–178): `ABSENT_VERTX` when the id is not
in the vertex table; removal from both tables when the adjacency entry exists with
both sets empty; `VERTEX_NOT_FREE` otherwise. -/
def delete_vertex (g : DirectedGraph V E) (vertex_id : Nat) :
    Result Nat ErrorType × DirectedGraph V E :=
  if (g.vertex_index vertex_id).isSome then
    match g.adjacency_list vertex_id with
    | some es =>
        if es.incoming_edges = ∅ ∧ es.outgoing_edges = ∅ then
          (Result.success vertex_id,
            { g with
              vertex_index := mapErase g.vertex_index vertex_id,
              adjacency_list := mapErase g.adjacency_list vertex_id })
        else
          (Result.error ErrorType.VERTEX_NOT_FREE, g)
    | none => (Result.error ErrorType.VERTEX_NOT_FREE, g)
  else
    (Result.error ErrorType.ABSENT_VERTX, g)

/-- `DirectedGraph::add_edge` (lines 180–196): `ABSENT_VERTX` when either endpoint is
missing; when `hash(e)` is already bound, `EDGE_ALREADY_EXISTS` if the stored record
has a different endpoint pair and success (no mutation) if it matches; otherwise the
record is stored and the id is inserted into `adjacency_list[from_id].outgoing_edges`
and then `adjacency_list[to_id].incoming_edges`. -/
def add_edge (g : DirectedGraph V E) (from_id to_id : Nat) (e : E) :
    Result Nat ErrorType × DirectedGraph V E :=
  if (g.vertex_index from_id).isSome ∧ (g.vertex_index to_id).isSome then
    let edge_id := hashE e
    match g.edge_index edge_id with
    | some edge_info =>
        if edge_info.from_id ≠ from_id ∨ edge_info.to_id ≠ to_id then
          (Result.error ErrorType.EDGE_ALREADY_EXISTS, g)
        else
          (Result.success edge_id, g)
    | none =>
        (Result.success edge_id,
          { g with
            edge_index := mapInsert g.edge_index edge_id
              { from_id := from_id, to_id := to_id, edge := e },
            adjacency_list :=
              adjUpdate
                (adjUpdate g.adjacency_list from_id fun es =>
                  { es with outgoing_edges := insert edge_id es.outgoing_edges })
                to_id fun es =>
                  { es with incoming_edges := insert edge_id es.incoming_edges } })
  else
    (Result.error ErrorType.ABSENT_VERTX, g)

/-- `DirectedGraph::delete_edge` (lines 198–208): when the id is bound, the record is
erased and the id removed from `adjacency_list[from_id].outgoing_edges` and
`adjacency_list[to_id].incoming_edges`; otherwise `ABSENT_EDGE`. -/
def delete_edge (g : DirectedGraph V E) (edge_id : Nat) :
    Result Nat ErrorType × DirectedGraph V E :=
  match g.edge_index edge_id with
  | some rec0 =>
      (Result.success edge_id,
        { g with
          edge_index := mapErase g.edge_index edge_id,
          adjacency_list :=
            adjUpdate
              (adjUpdate g.adjacency_list rec0.from_id fun es =>
                { es with outgoing_edges := es.outgoing_edges.erase edge_id })
              rec0.to_id fun es =>
                { es with incoming_edges := es.incoming_edges.erase edge_id } })
  | none => (Result.error ErrorType.ABSENT_EDGE, g)

/-- `DirectedGraph::get_vertex` (lines 210–215). -/
def get_vertex (g : DirectedGraph V E) (id : Nat) : Result V ErrorType :=
  match g.vertex_index id with
  | some v => Result.success v
  | none => Result.error ErrorType.ABSENT_VERTX

/-- `DirectedGraph::get_edge` (lines 217–222). -/
def get_edge (g : DirectedGraph V E) (id : Nat) : Result (Edge E) ErrorType :=
  match g.edge_index id with
  | some rec0 => Result.success rec0
  | none => Result.error ErrorType.ABSENT_EDGE

/-- `DirectedGraph::get_children` (lines 224–235): `ABSENT_VERTX` when the vertex has
no adjacency entry, otherwise the `to_id`s of the outgoing edges (the `edge_index.at`
lookups may fault, hence the outer `Except`). -/
def get_children (g : DirectedGraph V E) (vertex_id : Nat) :
    Except Fault (Result (Finset Nat) ErrorType) :=
  match g.adjacency_list vertex_id with
  | none => Except.ok (Result.error ErrorType.ABSENT_VERTX)
  | some es => (atImage g.edge_index Edge.to_id es.outgoing_edges).map Result.success

/-- `DirectedGraph::get_parents` (lines 237–246): the `from_id`s of the incoming
edges. -/
def get_parents (g : DirectedGraph V E) (vertex_id : Nat) :
    Except Fault (Result (Finset Nat) ErrorType) :=
  match g.adjacency_list vertex_id with
  | none => Except.ok (Result.error ErrorType.ABSENT_VERTX)
  | some es => (atImage g.edge_index Edge.from_id es.incoming_edges).map Result.success

/-- `DirectedGraph::get_neighbours` (current header, lines 248–267): the union of the
`to_id`s of the outgoing edges and the `from_id`s of the incoming edges. -/
def get_neighbours (g : DirectedGraph V E) (vertex_id : Nat) :
    Except Fault (Result (Finset Nat) ErrorType) :=
  match g.adjacency_list vertex_id with
  | none => Except.ok (Result.error ErrorType.ABSENT_VERTX)
  | some es => do
      let children ← atImage g.edge_index Edge.to_id es.outgoing_edges
      let parents ← atImage g.edge_index Edge.from_id es.incoming_edges
      pure (Result.success (children ∪ parents))

/-- `DirectedGraph::get_outgoing_edges` (lines 269–275): a copy of the outgoing
edge-id set. -/
def get_outgoing_edges (g : DirectedGraph V E) (vertex_id : Nat) :
    Result (Finset Nat) ErrorType :=
  match g.adjacency_list vertex_id with
  | none => Result.error ErrorType.ABSENT_VERTX
  | some es => Result.success es.outgoing_edges

/-- `DirectedGraph::get_incoming_edges` (lines 277–283): a copy of the incoming
edge-id set. -/
def get_incoming_edges (g : DirectedGraph V E) (vertex_id : Nat) :
    Result (Finset Nat) ErrorType :=
  match g.adjacency_list vertex_id with
  | none => Result.error ErrorType.ABSENT_VERTX
  | some es => Result.success es.incoming_edges

end GraphOps

/-- A mutation call on the graph: the four state-changing operations. -/
inductive Op (V E : Type) where
  | addV (v : V)
  | addE (from_id to_id : Nat) (e : E)
  | delV (id : Nat)
  | delE (id : Nat)

section Runs

variable {V E : Type} (hashV : V → Nat) (hashE : E → Nat)

/-- The state after one mutation call (the returned `Result` is discarded). -/
def apply_op (g : DirectedGraph V E) : Op V E → DirectedGraph V E
  | Op.addV v => (add_vertex hashV g v).2
  | Op.addE a b e => (add_edge hashE g a b e).2
  | Op.delV id => (delete_vertex g id).2
  | Op.delE id => (delete_edge g id).2

/-- The state reached from a default-constructed graph by a call sequence. -/
def run (ops : List (Op V E)) : DirectedGraph V E :=
  ops.foldl (apply_op hashV hashE) DirectedGraph.empty

end Runs

/-- Structural well-formedness of a graph state.  It packages the spec's invariants
I1 and I2's prerequisites as they hold of every state the C++ class can reach:
the vertex table and the adjacency index share their key set; every stored edge has
both endpoints in the vertex table; an edge id sits in an outgoing (resp. incoming)
set exactly at its record's `from_id` (resp. `to_id`); and every id in an adjacency
set is a live edge. -/
structure WF {V E : Type} (g : DirectedGraph V E) : Prop where
  keys : ∀ k, (g.vertex_index k).isSome ↔ (g.adjacency_list k).isSome
  ends_from : ∀ eid rec0, g.edge_index eid = some rec0 →
    (g.vertex_index rec0.from_id).isSome
  ends_to : ∀ eid rec0, g.edge_index eid = some rec0 →
    (g.vertex_index rec0.to_id).isSome
  out_iff : ∀ eid rec0 vid es, g.edge_index eid = some rec0 →
    g.adjacency_list vid = some es → (eid ∈ es.outgoing_edges ↔ vid = rec0.from_id)
  in_iff : ∀ eid rec0 vid es, g.edge_index eid = some rec0 →
    g.adjacency_list vid = some es → (eid ∈ es.incoming_edges ↔ vid = rec0.to_id)
  live_out : ∀ vid es eid, g.adjacency_list vid = some es →
    eid ∈ es.outgoing_edges → (g.edge_index eid).isSome
  live_in : ∀ vid es eid, g.adjacency_list vid = some es →
    eid ∈ es.incoming_edges → (g.edge_index eid).isSome

namespace legacy

/-- `DirectedGraph::get_neighbours` from the legacy header (`src/headers/graph.hpp`
lines 152–171).  Unlike the current header, BOTH transform pipelines read
`incoming_edges` and project `from_id` — the local variable named `children` also
ranges over the incoming edges — so the union collapses to the parents alone. -/
def get_neighbours {V E : Type} (g : DirectedGraph V E) (vertex_id : Nat) :
    Except Fault (Result (Finset Nat) ErrorType) :=
  match g.adjacency_list vertex_id with
  | none => Except.ok (Result.error ErrorType.ABSENT_VERTX)
  | some es => do
      let children ← atImage g.edge_index Edge.from_id es.incoming_edges
      let parents ← atImage g.edge_index Edge.from_id es.incoming_edges
      pure (Result.success (children ∪ parents))

/-- The legacy `cgrapht::Result` from `src/headers/models.hpp`.  Besides
`is_success` it carries an (unused) `is_initialized` flag. -/
structure Result (S E : Type) where
  result : Variant S E
  is_success : Bool
  is_initialized : Bool
deriving DecidableEq, Repr

/-- Legacy `Result::success`. -/
def Result.success {S E : Type} (s : S) : Result S E :=
  { result := Variant.succ s, is_success := true, is_initialized := true }

/-- Legacy `Result::error`. -/
def Result.error {S E : Type} (e : E) : Result S E :=
  { result := Variant.err e, is_success := false, is_initialized := true }

/-- Legacy `Result::consume_ok` (`src/headers/models.hpp` lines 55–61).  Note the
condition: the payload branch is taken when `!is_success`, where
`std::get<SUCCESS>` faults because the variant holds the error alternative; when
`is_success` it throws `std::runtime_error`. -/
def Result.consume_ok {S E : Type} (r : Result S E) : Except Fault S :=
  if ¬ r.is_success then
    match r.result with
    | Variant.succ s => Except.ok s
    | _ => Except.error Fault.bad_variant_access
  else
    Except.error (Fault.runtime_error "Cannot consume ok value from error result")

/-- Legacy `Result::consume_error` (`src/headers/models.hpp` lines 69–75).  The
payload branch is taken when `is_success`, mirroring the inverted condition of the
legacy `consume_ok`. -/
def Result.consume_error {S E : Type} (r : Result S E) : Except Fault E :=
  if r.is_success then
    match r.result with
    | Variant.err e => Except.ok e
    | _ => Except.error Fault.bad_variant_access
  else
    Except.error (Fault.runtime_error "Cannot consume error value from success result")

end legacy

/-! ### Basic lemmas about the map model -/

theorem mapInsert_apply {α : Type} (m : Nat → Option α) (k x : Nat) (v : α) :
    mapInsert m k v x = if x = k then some v else m x := rfl

theorem mapErase_apply {α : Type} (m : Nat → Option α) (k x : Nat) :
    mapErase m k x = if x = k then none else m x := rfl

theorem adjUpdate_apply (m : Nat → Option EdgeSet) (k x : Nat) (f : EdgeSet → EdgeSet) :
    adjUpdate m k f x =
      if x = k then some (f ((m k).getD EdgeSet.default)) else m x := rfl

/-! ### Preservation of well-formedness -/

theorem wf_empty {V E : Type} : WF (DirectedGraph.empty (V := V) (E := E)) := by
  constructor <;> simp [DirectedGraph.empty]

theorem wf_add_vertex {V E : Type} (hashV : V → Nat) (g : DirectedGraph V E) (v : V)
    (h : WF g) : WF (add_vertex hashV g v).2 := by
  unfold add_vertex
  by_cases hc : (g.vertex_index (hashV v)).isSome
  · simpa [hc] using h
  · simp only [hc, Bool.false_eq_true, if_false]
    refine ⟨?_, ?_, ?_, ?_, ?_, ?_, ?_⟩
    · intro k
      by_cases hk : k = hashV v <;> simp [mapInsert_apply, hk, h.keys k]
    · intro eid rec0 he
      have hf := h.ends_from eid rec0 he
      by_cases hk : rec0.from_id = hashV v <;> simp [mapInsert_apply, hk, hf]
    · intro eid rec0 he
      have hf := h.ends_to eid rec0 he
      by_cases hk : rec0.to_id = hashV v <;> simp [mapInsert_apply, hk, hf]
    · intro eid rec0 vid es he ha
      by_cases hk : vid = hashV v
      · subst hk
        simp only [mapInsert_apply, if_pos rfl] at ha
        have hf := h.ends_from eid rec0 he
        constructor
        · intro hmem
          obtain rfl := Option.some_inj.mp ha
          simp [EdgeSet.default] at hmem
        · intro heq
          exact absurd (heq ▸ hf) (by simpa using hc)
      · simp only [mapInsert_apply, if_neg hk] at ha
        exact h.out_iff eid rec0 vid es he ha
    · intro eid rec0 vid es he ha
      by_cases hk : vid = hashV v
      · subst hk
        simp only [mapInsert_apply, if_pos rfl] at ha
        have hf := h.ends_to eid rec0 he
        constructor
        · intro hmem
          obtain rfl := Option.some_inj.mp ha
          simp [EdgeSet.default] at hmem
        · intro heq
          exact absurd (heq ▸ hf) (by simpa using hc)
      · simp only [mapInsert_apply, if_neg hk] at ha
        exact h.in_iff eid rec0 vid es he ha
    · intro vid es eid ha hmem
      by_cases hk : vid = hashV v
      · subst hk
        simp only [mapInsert_apply, if_pos rfl] at ha
        obtain rfl := Option.some_inj.mp ha
        simp [EdgeSet.default] at hmem
      · simp only [mapInsert_apply, if_neg hk] at ha
        exact h.live_out vid es eid ha hmem
    · intro vid es eid ha hmem
      by_cases hk : vid = hashV v
      · subst hk
        simp only [mapInsert_apply, if_pos rfl] at ha
        obtain rfl := Option.some_inj.mp ha
        simp [EdgeSet.default] at hmem
      · simp only [mapInsert_apply, if_neg hk] at ha
        exact h.live_in vid es eid ha hmem

theorem wf_delete_vertex {V E : Type} (g : DirectedGraph V E) (id : Nat)
    (h : WF g) : WF (delete_vertex g id).2 := by
  unfold delete_vertex
  by_cases hc : (g.vertex_index id).isSome
  · simp only [hc, if_true]
    cases hadj : g.adjacency_list id with
    | none => simpa using h
    | some es =>
      by_cases hem : es.incoming_edges = ∅ ∧ es.outgoing_edges = ∅
      · simp only [hem, if_pos, and_self]
        have hfrom_ne : ∀ eid rec0, g.edge_index eid = some rec0 → rec0.from_id ≠ id := by
          intro eid rec0 he heq
          have := (h.out_iff eid rec0 id es he hadj).mpr heq.symm
          rw [hem.2] at this
          simp at this
        have hto_ne : ∀ eid rec0, g.edge_index eid = some rec0 → rec0.to_id ≠ id := by
          intro eid rec0 he heq
          have := (h.in_iff eid rec0 id es he hadj).mpr heq.symm
          rw [hem.1] at this
          simp at this
        refine ⟨?_, ?_, ?_, ?_, ?_, ?_, ?_⟩
        · intro k
          by_cases hk : k = id <;> simp [mapErase_apply, hk, h.keys k]
        · intro eid rec0 he
          simp only [mapErase_apply, if_neg (hfrom_ne eid rec0 he)]
          exact h.ends_from eid rec0 he
        · intro eid rec0 he
          simp only [mapErase_apply, if_neg (hto_ne eid rec0 he)]
          exact h.ends_to eid rec0 he
        · intro eid rec0 vid es' he ha
          by_cases hk : vid = id
          · simp [mapErase_apply, hk] at ha
          · simp only [mapErase_apply, if_neg hk] at ha
            exact h.out_iff eid rec0 vid es' he ha
        · intro eid rec0 vid es' he ha
          by_cases hk : vid = id
          · simp [mapErase_apply, hk] at ha
          · simp only [mapErase_apply, if_neg hk] at ha
            exact h.in_iff eid rec0 vid es' he ha
        · intro vid es' eid ha hmem
          by_cases hk : vid = id
          · simp [mapErase_apply, hk] at ha
          · simp only [mapErase_apply, if_neg hk] at ha
            exact h.live_out vid es' eid ha hmem
        · intro vid es' eid ha hmem
          by_cases hk : vid = id
          · simp [mapErase_apply, hk] at ha
          · simp only [mapErase_apply, if_neg hk] at ha
            exact h.live_in vid es' eid ha hmem
      · simpa [hem] using h
  · simpa [hc] using h

/-! ### Unfolding lemmas for the `add_edge` insert path and `delete_edge` -/

theorem add_edge_insert_eq {V E : Type} (hashE : E → Nat) (g : DirectedGraph V E)
    (a b : Nat) (e : E) (hva : (g.vertex_index a).isSome = true)
    (hvb : (g.vertex_index b).isSome = true)
    (hnone : g.edge_index (hashE e) = none) :
    add_edge hashE g a b e =
      (Result.success (hashE e),
        { g with
          edge_index := mapInsert g.edge_index (hashE e)
            { from_id := a, to_id := b, edge := e },
          adjacency_list :=
            adjUpdate
              (adjUpdate g.adjacency_list a fun es =>
                { es with outgoing_edges := insert (hashE e) es.outgoing_edges })
              b fun es =>
                { es with incoming_edges := insert (hashE e) es.incoming_edges } }) := by
  unfold add_edge
  rw [if_pos ⟨hva, hvb⟩]
  simp only [hnone]

theorem adjUpdate2_some (m : Nat → Option EdgeSet) (a b : Nat)
    (f1 f2 : EdgeSet → EdgeSet) (esa esb : EdgeSet)
    (hA : m a = some esa) (hB : m b = some esb) :
    ∀ vid es, m vid = some es →
      adjUpdate (adjUpdate m a f1) b f2 vid =
        some (if vid = b then f2 (if vid = a then f1 es else es)
              else if vid = a then f1 es else es) := by
  intro vid es hes
  simp only [adjUpdate_apply]
  by_cases h2 : vid = b
  · subst h2
    by_cases h3 : vid = a
    · subst h3
      rw [hes] at hA
      obtain rfl := Option.some_inj.mp hA
      simp [hes]
    · have hba : vid ≠ a := h3
      rw [hes] at hB
      obtain rfl := Option.some_inj.mp hB
      simp [if_neg hba, hes]
  · rw [if_neg h2]
    by_cases h3 : vid = a
    · subst h3
      rw [hes] at hA
      obtain rfl := Option.some_inj.mp hA
      simp [if_neg h2, hes]
    · rw [if_neg h3, hes, if_neg h2, if_neg h3]

theorem adjUpdate2_none (m : Nat → Option EdgeSet) (a b : Nat)
    (f1 f2 : EdgeSet → EdgeSet) (esa esb : EdgeSet)
    (hA : m a = some esa) (hB : m b = some esb) :
    ∀ vid, m vid = none →
      adjUpdate (adjUpdate m a f1) b f2 vid = none := by
  intro vid hes
  have hb2 : vid ≠ b := fun hh => by rw [hh, hB] at hes; cases hes
  have ha2 : vid ≠ a := fun hh => by rw [hh, hA] at hes; cases hes
  simp [adjUpdate_apply, if_neg hb2, if_neg ha2, hes]

theorem delete_edge_eq {V E : Type} (g : DirectedGraph V E) (edge_id : Nat)
    (rec0 : Edge E) (hrec : g.edge_index edge_id = some rec0) :
    delete_edge g edge_id =
      (Result.success edge_id,
        { g with
          edge_index := mapErase g.edge_index edge_id,
          adjacency_list :=
            adjUpdate
              (adjUpdate g.adjacency_list rec0.from_id fun es =>
                { es with outgoing_edges := es.outgoing_edges.erase edge_id })
              rec0.to_id fun es =>
                { es with incoming_edges := es.incoming_edges.erase edge_id } }) := by
  unfold delete_edge
  rw [hrec]

theorem wf_add_edge {V E : Type} (hashE : E → Nat) (g : DirectedGraph V E)
    (a b : Nat) (e : E) (h : WF g) : WF (add_edge hashE g a b e).2 := by
  by_cases hv : (g.vertex_index a).isSome = true ∧ (g.vertex_index b).isSome = true
  · obtain ⟨hva, hvb⟩ := hv
    cases hedge : g.edge_index (hashE e) with
    | some edge_info =>
        have hstate : (add_edge hashE g a b e).2 = g := by
          unfold add_edge
          rw [if_pos ⟨hva, hvb⟩]
          simp only [hedge]
          split <;> rfl
        rw [hstate]
        exact h
    | none =>
        obtain ⟨esa, hA⟩ := Option.isSome_iff_exists.mp ((h.keys a).mp hva)
        obtain ⟨esb, hB⟩ := Option.isSome_iff_exists.mp ((h.keys b).mp hvb)
        have hEQ := add_edge_insert_eq hashE g a b e hva hvb hedge
        have hvi : (add_edge hashE g a b e).2.vertex_index = g.vertex_index := by
          rw [hEQ]
        have hei : (add_edge hashE g a b e).2.edge_index =
            mapInsert g.edge_index (hashE e) { from_id := a, to_id := b, edge := e } := by
          rw [hEQ]
        have hadj : (add_edge hashE g a b e).2.adjacency_list =
            adjUpdate
              (adjUpdate g.adjacency_list a fun es =>
                { es with outgoing_edges := insert (hashE e) es.outgoing_edges })
              b (fun es =>
                { es with incoming_edges := insert (hashE e) es.incoming_edges }) := by
          rw [hEQ]
        have hsome := adjUpdate2_some g.adjacency_list a b
          (fun es => { es with outgoing_edges := insert (hashE e) es.outgoing_edges })
          (fun es => { es with incoming_edges := insert (hashE e) es.incoming_edges })
          esa esb hA hB
        have hnone2 := adjUpdate2_none g.adjacency_list a b
          (fun es => { es with outgoing_edges := insert (hashE e) es.outgoing_edges })
          (fun es => { es with incoming_edges := insert (hashE e) es.incoming_edges })
          esa esb hA hB
        have hout : ∀ (vid : Nat) (es : EdgeSet),
            (if vid = b then
              (fun es =>
                { es with incoming_edges := insert (hashE e) es.incoming_edges })
                (if vid = a then
                  (fun es =>
                    { es with outgoing_edges := insert (hashE e) es.outgoing_edges }) es
                 else es)
            else if vid = a then
              (fun es =>
                { es with outgoing_edges := insert (hashE e) es.outgoing_edges }) es
            else es).outgoing_edges =
              if vid = a then insert (hashE e) es.outgoing_edges
              else es.outgoing_edges := by
          intro vid es
          split_ifs <;> rfl
        have hinc : ∀ (vid : Nat) (es : EdgeSet),
            (if vid = b then
              (fun es =>
                { es with incoming_edges := insert (hashE e) es.incoming_edges })
                (if vid = a then
                  (fun es =>
                    { es with outgoing_edges := insert (hashE e) es.outgoing_edges }) es
                 else es)
            else if vid = a then
              (fun es =>
                { es with outgoing_edges := insert (hashE e) es.outgoing_edges }) es
            else es).incoming_edges =
              if vid = b then insert (hashE e) es.incoming_edges
              else es.incoming_edges := by
          intro vid es
          split_ifs <;> rfl
        refine ⟨?_, ?_, ?_, ?_, ?_, ?_, ?_⟩
        · intro k
          rw [hvi, hadj]
          cases hk : g.adjacency_list k with
          | some es =>
              rw [hsome k es hk]
              have hkk := h.keys k
              rw [hk] at hkk
              simpa using hkk
          | none =>
              rw [hnone2 k hk]
              have hkk := h.keys k
              rw [hk] at hkk
              simpa using hkk
        · intro eid' rec' he
          rw [hei] at he
          rw [hvi]
          by_cases hk : eid' = hashE e
          · simp only [mapInsert_apply, if_pos hk] at he
            obtain rfl := Option.some_inj.mp he
            simpa using hva
          · simp only [mapInsert_apply, if_neg hk] at he
            exact h.ends_from eid' rec' he
        · intro eid' rec' he
          rw [hei] at he
          rw [hvi]
          by_cases hk : eid' = hashE e
          · simp only [mapInsert_apply, if_pos hk] at he
            obtain rfl := Option.some_inj.mp he
            simpa using hvb
          · simp only [mapInsert_apply, if_neg hk] at he
            exact h.ends_to eid' rec' he
        · intro eid' rec' vid es' he ha
          rw [hei] at he
          rw [hadj] at ha
          cases hk : g.adjacency_list vid with
          | none => rw [hnone2 vid hk] at ha; cases ha
          | some es =>
              rw [hsome vid es hk] at ha
              obtain rfl := Option.some_inj.mp ha
              rw [hout vid es]
              by_cases hk2 : eid' = hashE e
              · simp only [mapInsert_apply, if_pos hk2] at he
                obtain rfl := Option.some_inj.mp he
                rw [hk2]
                by_cases h4 : vid = a
                · simp [h4]
                · rw [if_neg h4]
                  simp only [h4, iff_false]
                  intro hmem
                  have hlive := h.live_out vid es (hashE e) hk hmem
                  rw [hedge] at hlive
                  cases hlive
              · simp only [mapInsert_apply, if_neg hk2] at he
                have hold := h.out_iff eid' rec' vid es he hk
                by_cases h4 : vid = a
                · rw [if_pos h4, Finset.mem_insert]
                  simp [hk2, hold]
                · rw [if_neg h4]
                  exact hold
        · intro eid' rec' vid es' he ha
          rw [hei] at he
          rw [hadj] at ha
          cases hk : g.adjacency_list vid with
          | none => rw [hnone2 vid hk] at ha; cases ha
          | some es =>
              rw [hsome vid es hk] at ha
              obtain rfl := Option.some_inj.mp ha
              rw [hinc vid es]
              by_cases hk2 : eid' = hashE e
              · simp only [mapInsert_apply, if_pos hk2] at he
                obtain rfl := Option.some_inj.mp he
                rw [hk2]
                by_cases h4 : vid = b
                · simp [h4]
                · rw [if_neg h4]
                  simp only [h4, iff_false]
                  intro hmem
                  have hlive := h.live_in vid es (hashE e) hk hmem
                  rw [hedge] at hlive
                  cases hlive
              · simp only [mapInsert_apply, if_neg hk2] at he
                have hold := h.in_iff eid' rec' vid es he hk
                by_cases h4 : vid = b
                · rw [if_pos h4, Finset.mem_insert]
                  simp [hk2, hold]
                · rw [if_neg h4]
                  exact hold
        · intro vid es' eid' ha hmem
          rw [hadj] at ha
          rw [hei]
          cases hk : g.adjacency_list vid with
          | none => rw [hnone2 vid hk] at ha; cases ha
          | some es =>
              rw [hsome vid es hk] at ha
              obtain rfl := Option.some_inj.mp ha
              rw [hout vid es] at hmem
              by_cases hk2 : eid' = hashE e
              · simp [mapInsert_apply, hk2]
              · simp only [mapInsert_apply, if_neg hk2]
                have hmem2 : eid' ∈ es.outgoing_edges := by
                  by_cases h4 : vid = a
                  · rw [if_pos h4] at hmem
                    rcases Finset.mem_insert.mp hmem with hc | hc
                    · exact absurd hc hk2
                    · exact hc
                  · rw [if_neg h4] at hmem
                    exact hmem
                exact h.live_out vid es eid' hk hmem2
        · intro vid es' eid' ha hmem
          rw [hadj] at ha
          rw [hei]
          cases hk : g.adjacency_list vid with
          | none => rw [hnone2 vid hk] at ha; cases ha
          | some es =>
              rw [hsome vid es hk] at ha
              obtain rfl := Option.some_inj.mp ha
              rw [hinc vid es] at hmem
              by_cases hk2 : eid' = hashE e
              · simp [mapInsert_apply, hk2]
              · simp only [mapInsert_apply, if_neg hk2]
                have hmem2 : eid' ∈ es.incoming_edges := by
                  by_cases h4 : vid = b
                  · rw [if_pos h4] at hmem
                    rcases Finset.mem_insert.mp hmem with hc | hc
                    · exact absurd hc hk2
                    · exact hc
                  · rw [if_neg h4] at hmem
                    exact hmem
                exact h.live_in vid es eid' hk hmem2
  · have hstate : (add_edge hashE g a b e).2 = g := by
      unfold add_edge
      rw [if_neg hv]
    rw [hstate]
    exact h


theorem wf_delete_edge {V E : Type} (g : DirectedGraph V E) (edge_id : Nat)
    (h : WF g) : WF (delete_edge g edge_id).2 := by
  cases hrec : g.edge_index edge_id with
  | none =>
      have hstate : (delete_edge g edge_id).2 = g := by
        unfold delete_edge
        rw [hrec]
      rw [hstate]
      exact h
  | some rec0 =>
      obtain ⟨esa, hA⟩ := Option.isSome_iff_exists.mp
        ((h.keys rec0.from_id).mp (h.ends_from edge_id rec0 hrec))
      obtain ⟨esb, hB⟩ := Option.isSome_iff_exists.mp
        ((h.keys rec0.to_id).mp (h.ends_to edge_id rec0 hrec))
      have hEQ := delete_edge_eq g edge_id rec0 hrec
      have hvi : (delete_edge g edge_id).2.vertex_index = g.vertex_index := by
        rw [hEQ]
      have hei : (delete_edge g edge_id).2.edge_index =
          mapErase g.edge_index edge_id := by
        rw [hEQ]
      have hadj : (delete_edge g edge_id).2.adjacency_list =
          adjUpdate
            (adjUpdate g.adjacency_list rec0.from_id fun es =>
              { es with outgoing_edges := es.outgoing_edges.erase edge_id })
            rec0.to_id (fun es =>
              { es with incoming_edges := es.incoming_edges.erase edge_id }) := by
        rw [hEQ]
      have hsome := adjUpdate2_some g.adjacency_list rec0.from_id rec0.to_id
        (fun es => { es with outgoing_edges := es.outgoing_edges.erase edge_id })
        (fun es => { es with incoming_edges := es.incoming_edges.erase edge_id })
        esa esb hA hB
      have hnone2 := adjUpdate2_none g.adjacency_list rec0.from_id rec0.to_id
        (fun es => { es with outgoing_edges := es.outgoing_edges.erase edge_id })
        (fun es => { es with incoming_edges := es.incoming_edges.erase edge_id })
        esa esb hA hB
      have hout : ∀ (vid : Nat) (es : EdgeSet),
          (if vid = rec0.to_id then
            (fun es =>
              { es with incoming_edges := es.incoming_edges.erase edge_id })
              (if vid = rec0.from_id then
                (fun es =>
                  { es with outgoing_edges := es.outgoing_edges.erase edge_id }) es
               else es)
          else if vid = rec0.from_id then
            (fun es =>
              { es with outgoing_edges := es.outgoing_edges.erase edge_id }) es
          else es).outgoing_edges =
            if vid = rec0.from_id then es.outgoing_edges.erase edge_id
            else es.outgoing_edges := by
        intro vid es
        split_ifs <;> rfl
      have hinc : ∀ (vid : Nat) (es : EdgeSet),
          (if vid = rec0.to_id then
            (fun es =>
              { es with incoming_edges := es.incoming_edges.erase edge_id })
              (if vid = rec0.from_id then
                (fun es =>
                  { es with outgoing_edges := es.outgoing_edges.erase edge_id }) es
               else es)
          else if vid = rec0.from_id then
            (fun es =>
              { es with outgoing_edges := es.outgoing_edges.erase edge_id }) es
          else es).incoming_edges =
            if vid = rec0.to_id then es.incoming_edges.erase edge_id
            else es.incoming_edges := by
        intro vid es
        split_ifs <;> rfl
      refine ⟨?_, ?_, ?_, ?_, ?_, ?_, ?_⟩
      · intro k
        rw [hvi, hadj]
        cases hk : g.adjacency_list k with
        | some es =>
            rw [hsome k es hk]
            have hkk := h.keys k
            rw [hk] at hkk
            simpa using hkk
        | none =>
            rw [hnone2 k hk]
            have hkk := h.keys k
            rw [hk] at hkk
            simpa using hkk
      · intro eid' rec' he
        rw [hei] at he
        rw [hvi]
        by_cases hk : eid' = edge_id
        · simp [mapErase_apply, hk] at he
        · simp only [mapErase_apply, if_neg hk] at he
          exact h.ends_from eid' rec' he
      · intro eid' rec' he
        rw [hei] at he
        rw [hvi]
        by_cases hk : eid' = edge_id
        · simp [mapErase_apply, hk] at he
        · simp only [mapErase_apply, if_neg hk] at he
          exact h.ends_to eid' rec' he
      · intro eid' rec' vid es' he ha
        rw [hei] at he
        rw [hadj] at ha
        by_cases hk2 : eid' = edge_id
        · simp [mapErase_apply, hk2] at he
        · simp only [mapErase_apply, if_neg hk2] at he
          cases hk : g.adjacency_list vid with
          | none => rw [hnone2 vid hk] at ha; cases ha
          | some es =>
              rw [hsome vid es hk] at ha
              obtain rfl := Option.some_inj.mp ha
              rw [hout vid es]
              have hold := h.out_iff eid' rec' vid es he hk
              by_cases h4 : vid = rec0.from_id
              · rw [if_pos h4, Finset.mem_erase]
                simp [hk2, hold]
              · rw [if_neg h4]
                exact hold
      · intro eid' rec' vid es' he ha
        rw [hei] at he
        rw [hadj] at ha
        by_cases hk2 : eid' = edge_id
        · simp [mapErase_apply, hk2] at he
        · simp only [mapErase_apply, if_neg hk2] at he
          cases hk : g.adjacency_list vid with
          | none => rw [hnone2 vid hk] at ha; cases ha
          | some es =>
              rw [hsome vid es hk] at ha
              obtain rfl := Option.some_inj.mp ha
              rw [hinc vid es]
              have hold := h.in_iff eid' rec' vid es he hk
              by_cases h4 : vid = rec0.to_id
              · rw [if_pos h4, Finset.mem_erase]
                simp [hk2, hold]
              · rw [if_neg h4]
                exact hold
      · intro vid es' eid' ha hmem
        rw [hadj] at ha
        rw [hei]
        cases hk : g.adjacency_list vid with
        | none => rw [hnone2 vid hk] at ha; cases ha
        | some es =>
            rw [hsome vid es hk] at ha
            obtain rfl := Option.some_inj.mp ha
            rw [hout vid es] at hmem
            by_cases h4 : vid = rec0.from_id
            · rw [if_pos h4] at hmem
              obtain ⟨hne, hmem2⟩ := Finset.mem_erase.mp hmem
              simp only [mapErase_apply, if_neg hne]
              exact h.live_out vid es eid' hk hmem2
            · rw [if_neg h4] at hmem
              have hne : eid' ≠ edge_id := by
                intro hh
                exact h4 ((h.out_iff edge_id rec0 vid es hrec hk).mp (hh ▸ hmem))
              simp only [mapErase_apply, if_neg hne]
              exact h.live_out vid es eid' hk hmem
      · intro vid es' eid' ha hmem
        rw [hadj] at ha
        rw [hei]
        cases hk : g.adjacency_list vid with
        | none => rw [hnone2 vid hk] at ha; cases ha
        | some es =>
            rw [hsome vid es hk] at ha
            obtain rfl := Option.some_inj.mp ha
            rw [hinc vid es] at hmem
            by_cases h4 : vid = rec0.to_id
            · rw [if_pos h4] at hmem
              obtain ⟨hne, hmem2⟩ := Finset.mem_erase.mp hmem
              simp only [mapErase_apply, if_neg hne]
              exact h.live_in vid es eid' hk hmem2
            · rw [if_neg h4] at hmem
              have hne : eid' ≠ edge_id := by
                intro hh
                exact h4 ((h.in_iff edge_id rec0 vid es hrec hk).mp (hh ▸ hmem))
              simp only [mapErase_apply, if_neg hne]
              exact h.live_in vid es eid' hk hmem

/-- Well-formedness is preserved by every mutation call. -/
theorem wf_apply_op {V E : Type} (hashV : V → Nat) (hashE : E → Nat)
    (g : DirectedGraph V E) (op : Op V E) (h : WF g) :
    WF (apply_op hashV hashE g op) := by
  cases op with
  | addV v => exact wf_add_vertex hashV g v h
  | addE a b e => exact wf_add_edge hashE g a b e h
  | delV id => exact wf_delete_vertex g id h
  | delE id => exact wf_delete_edge g id h

/-- Every state reachable from the empty graph is well-formed. -/
theorem wf_run {V E : Type} (hashV : V → Nat) (hashE : E → Nat)
    (ops : List (Op V E)) : WF (run hashV hashE ops) := by
  suffices hgen : ∀ (g : DirectedGraph V E), WF g →
      WF (ops.foldl (apply_op hashV hashE) g) by
    exact hgen DirectedGraph.empty wf_empty
  induction ops with
  | nil => intro g hg; exact hg
  | cons op rest ih =>
      intro g hg
      exact ih (apply_op hashV hashE g op) (wf_apply_op hashV hashE g op hg)

/-! ### Helper lemmas about the query functions -/

theorem atImage_ok_of {E : Type} (m : Nat → Option (Edge E)) (f : Edge E → Nat)
    (s : Finset Nat) (hall : ∀ x ∈ s, (m x).isSome) :
    atImage m f s = Except.ok (s.image fun x => ((m x).map f).getD 0) := by
  unfold atImage
  rw [if_pos hall]

theorem atImage_mem {E : Type} (m : Nat → Option (Edge E)) (f : Edge E → Nat)
    (s : Finset Nat) (x : Nat) (r : Edge E) (hx : x ∈ s) (hr : m x = some r) :
    f r ∈ s.image fun y => ((m y).map f).getD 0 := by
  have hval : ((m x).map f).getD 0 = f r := by rw [hr]; rfl
  rw [← hval]
  exact Finset.mem_image_of_mem _ hx

theorem atImage_empty {E : Type} (m : Nat → Option (Edge E)) (f : Edge E → Nat) :
    atImage m f ∅ = Except.ok ∅ := by
  unfold atImage
  rw [if_pos (by intro x hx; cases hx)]
  rw [Finset.image_empty]

theorem get_children_some {V E : Type} (g : DirectedGraph V E) (vid : Nat)
    (es : EdgeSet) (hes : g.adjacency_list vid = some es) :
    get_children g vid =
      (atImage g.edge_index Edge.to_id es.outgoing_edges).map Result.success := by
  unfold get_children
  rw [hes]

theorem get_parents_some {V E : Type} (g : DirectedGraph V E) (vid : Nat)
    (es : EdgeSet) (hes : g.adjacency_list vid = some es) :
    get_parents g vid =
      (atImage g.edge_index Edge.from_id es.incoming_edges).map Result.success := by
  unfold get_parents
  rw [hes]

theorem get_neighbours_some {V E : Type} (g : DirectedGraph V E) (vid : Nat)
    (es : EdgeSet) (hes : g.adjacency_list vid = some es) :
    get_neighbours g vid =
      (do
        let children ← atImage g.edge_index Edge.to_id es.outgoing_edges
        let parents ← atImage g.edge_index Edge.from_id es.incoming_edges
        pure (Result.success (children ∪ parents))) := by
  unfold get_neighbours
  rw [hes]

theorem get_outgoing_edges_some {V E : Type} (g : DirectedGraph V E) (vid : Nat)
    (es : EdgeSet) (hes : g.adjacency_list vid = some es) :
    get_outgoing_edges g vid = Result.success es.outgoing_edges := by
  unfold get_outgoing_edges
  rw [hes]

theorem get_incoming_edges_some {V E : Type} (g : DirectedGraph V E) (vid : Nat)
    (es : EdgeSet) (hes : g.adjacency_list vid = some es) :
    get_incoming_edges g vid = Result.success es.incoming_edges := by
  unfold get_incoming_edges
  rw [hes]

theorem delete_vertex_absent {V E : Type} (g : DirectedGraph V E) (id : Nat)
    (hz : g.vertex_index id = none) :
    delete_vertex g id = (Result.error ErrorType.ABSENT_VERTX, g) := by
  unfold delete_vertex
  rw [hz]
  rfl

theorem delete_vertex_not_free {V E : Type} (g : DirectedGraph V E) (id : Nat)
    (v : V) (es : EdgeSet) (hv : g.vertex_index id = some v)
    (hes : g.adjacency_list id = some es)
    (hne : ¬(es.incoming_edges = ∅ ∧ es.outgoing_edges = ∅)) :
    delete_vertex g id = (Result.error ErrorType.VERTEX_NOT_FREE, g) := by
  unfold delete_vertex
  rw [hv]
  simp only [Option.isSome_some, if_true, hes]
  rw [if_neg hne]

theorem delete_vertex_free {V E : Type} (g : DirectedGraph V E) (id : Nat)
    (v : V) (es : EdgeSet) (hv : g.vertex_index id = some v)
    (hes : g.adjacency_list id = some es)
    (hi : es.incoming_edges = ∅) (ho : es.outgoing_edges = ∅) :
    delete_vertex g id =
      (Result.success id,
        { g with
          vertex_index := mapErase g.vertex_index id,
          adjacency_list := mapErase g.adjacency_list id }) := by
  unfold delete_vertex
  rw [hv]
  simp only [Option.isSome_some, if_true, hes]
  rw [if_pos ⟨hi, ho⟩]

/-- In a well-formed state every stored edge is visible through all four adjacency
queries of its endpoints. -/
theorem wf_edge_queries {V E : Type} (g : DirectedGraph V E) (h : WF g) (eid : Nat)
    (rec0 : Edge E) (he : g.edge_index eid = some rec0) :
    (∃ s, get_children g rec0.from_id = Except.ok (Result.success s) ∧ rec0.to_id ∈ s) ∧
    (∃ s, get_parents g rec0.to_id = Except.ok (Result.success s) ∧ rec0.from_id ∈ s) ∧
    (∃ s, get_outgoing_edges g rec0.from_id = Result.success s ∧ eid ∈ s) ∧
    (∃ s, get_incoming_edges g rec0.to_id = Result.success s ∧ eid ∈ s) := by
  obtain ⟨esa, hA⟩ := Option.isSome_iff_exists.mp
    ((h.keys rec0.from_id).mp (h.ends_from eid rec0 he))
  obtain ⟨esb, hB⟩ := Option.isSome_iff_exists.mp
    ((h.keys rec0.to_id).mp (h.ends_to eid rec0 he))
  have hmo : eid ∈ esa.outgoing_edges := (h.out_iff eid rec0 rec0.from_id esa he hA).mpr rfl
  have hmi : eid ∈ esb.incoming_edges := (h.in_iff eid rec0 rec0.to_id esb he hB).mpr rfl
  refine ⟨?_, ?_, ?_, ?_⟩
  · refine ⟨esa.outgoing_edges.image fun y => ((g.edge_index y).map Edge.to_id).getD 0,
      ?_, ?_⟩
    · unfold get_children
      rw [hA]
      show (atImage g.edge_index Edge.to_id esa.outgoing_edges).map Result.success = _
      rw [atImage_ok_of g.edge_index Edge.to_id esa.outgoing_edges
        (fun x hx => h.live_out rec0.from_id esa x hA hx)]
      rfl
    · exact atImage_mem g.edge_index Edge.to_id esa.outgoing_edges eid rec0 hmo he
  · refine ⟨esb.incoming_edges.image fun y => ((g.edge_index y).map Edge.from_id).getD 0,
      ?_, ?_⟩
    · unfold get_parents
      rw [hB]
      show (atImage g.edge_index Edge.from_id esb.incoming_edges).map Result.success = _
      rw [atImage_ok_of g.edge_index Edge.from_id esb.incoming_edges
        (fun x hx => h.live_in rec0.to_id esb x hB hx)]
      rfl
    · exact atImage_mem g.edge_index Edge.from_id esb.incoming_edges eid rec0 hmi he
  · refine ⟨esa.outgoing_edges, ?_, hmo⟩
    unfold get_outgoing_edges
    rw [hA]
  · refine ⟨esb.incoming_edges, ?_, hmi⟩
    unfold get_incoming_edges
    rw [hB]

/-! ### The claims -/

/-- C1: the spec states that `get_neighbours(id)` returns the union of
`get_children(id)` and `get_parents(id)`, so in particular every one-step outgoing
neighbour is in the returned set.  The current header satisfies this, but the legacy
`DirectedGraph::get_neighbours` in `src/headers/graph.hpp` (also cited by the claim)
maps the incoming edge set twice, dropping the children: on the graph
`{1, 2, 2→1 (edge id 21)}` it returns `∅` for vertex `2` although `get_children(2)`
is `{1}`, contradicting `test_neighbour_functions.cc` which requires the union. -/
theorem C1_legacy_get_neighbours_drops_children :
    legacy.get_neighbours (run id id [Op.addV 1, Op.addV 2, Op.addE 2 1 21]) 2 =
      Except.ok (Result.success (∅ : Finset Nat)) ∧
    get_children (run id id [Op.addV 1, Op.addV 2, Op.addE 2 1 21]) 2 =
      Except.ok (Result.success ({1} : Finset Nat)) ∧
    get_parents (run id id [Op.addV 1, Op.addV 2, Op.addE 2 1 21]) 2 =
      Except.ok (Result.success (∅ : Finset Nat)) ∧
    get_neighbours (run id id [Op.addV 1, Op.addV 2, Op.addE 2 1 21]) 2 =
      Except.ok (Result.success ({1} : Finset Nat)) := by
  decide

/-- C2: the claim describes `consume_ok`/`consume_error` moving out the respective
payload and fail-fasting on wrong-variant access.  The current header behaves that
way (last two conjuncts), but in the legacy `src/headers/models.hpp` (also cited by
the claim) both conditions are inverted: `consume_ok` on a success result throws
`std::runtime_error`, and on an error result `std::get<SUCCESS>` faults, so it can
never return a payload — contradicting `test_result.cc`, which consumes a success
result and expects its value. -/
theorem C2_legacy_consume_inverted :
    legacy.Result.consume_ok (legacy.Result.success 23 : legacy.Result Nat ErrorType) =
      Except.error (Fault.runtime_error "Cannot consume ok value from error result") ∧
    legacy.Result.consume_ok
        (legacy.Result.error ErrorType.ABSENT_VERTX : legacy.Result Nat ErrorType) =
      Except.error Fault.bad_variant_access ∧
    legacy.Result.consume_error (legacy.Result.error 32 : legacy.Result Nat Nat) =
      Except.error (Fault.runtime_error "Cannot consume error value from success result") ∧
    Result.consume_ok (Result.success 23 : Result Nat ErrorType) = Except.ok 23 ∧
    Result.consume_error (Result.error 32 : Result Nat Nat) = Except.ok 32 ∧
    Result.consume_ok (Result.error 32 : Result Nat Nat) =
      Except.error (Fault.runtime_error "Cannot consume ok value from error result") ∧
    Result.consume_error (Result.success 23 : Result Nat ErrorType) =
      Except.error (Fault.runtime_error "Cannot consume error value from success result") := by
  decide

/-- C7: `add_vertex(v)` never fails and returns `hash(v)`; a second call returns the
same id and leaves the state exactly as after the first call, with a vertex stored
under that id. -/
theorem C7_add_vertex_idempotent {V E : Type} (hashV : V → Nat)
    (g : DirectedGraph V E) (v : V) :
    (add_vertex hashV g v).1 = Result.success (hashV v) ∧
    add_vertex hashV (add_vertex hashV g v).2 v =
      (Result.success (hashV v), (add_vertex hashV g v).2) ∧
    ((add_vertex hashV g v).2.vertex_index (hashV v)).isSome = true := by
  unfold add_vertex
  by_cases hc : (g.vertex_index (hashV v)).isSome
  · simp [hc]
  · simp [hc, mapInsert_apply]

/-- C3: when `hash(e)` is bound to the record `{a, b, e}`, a call
`add_edge(c, d, e)` with `(c, d) ≠ (a, b)` and both `c` and `d` present returns
`EDGE_ALREADY_EXISTS`, the state is returned unchanged, and `get_edge(hash(e))`
still yields the original record. -/
theorem C3_add_edge_conflict {V E : Type} (hashE : E → Nat) (g : DirectedGraph V E)
    (a b c d : Nat) (e : E)
    (hrec : g.edge_index (hashE e) = some { from_id := a, to_id := b, edge := e })
    (hcd : (c, d) ≠ (a, b))
    (hc : (g.vertex_index c).isSome = true) (hd : (g.vertex_index d).isSome = true) :
    add_edge hashE g c d e = (Result.error ErrorType.EDGE_ALREADY_EXISTS, g) ∧
    get_edge g (hashE e) =
      Result.success { from_id := a, to_id := b, edge := e } := by
  constructor
  · have hne : ({ from_id := a, to_id := b, edge := e } : Edge E).from_id ≠ c ∨
        ({ from_id := a, to_id := b, edge := e } : Edge E).to_id ≠ d := by
      have hor : c ≠ a ∨ d ≠ b := by
        by_contra hcon
        push_neg at hcon
        exact hcd (by rw [hcon.1, hcon.2])
      rcases hor with hx | hx
      · exact Or.inl (by simpa using (Ne.symm hx))
      · exact Or.inr (by simpa using (Ne.symm hx))
    unfold add_edge
    rw [if_pos ⟨hc, hd⟩]
    simp only [hrec]
    rw [if_pos hne]
  · unfold get_edge
    rw [hrec]

/-- C3 witness: on the graph `{1, 2, 3}` with edge `1→2` (payload and hash `12`),
re-binding the same payload as `1→3` is rejected with `EDGE_ALREADY_EXISTS` and the
state is untouched. -/
theorem C3_add_edge_conflict_witness :
    (run id id [Op.addV 1, Op.addV 2, Op.addV 3, Op.addE 1 2 12]).edge_index 12 =
      some { from_id := 1, to_id := 2, edge := 12 } ∧
    ((1, 3) : Nat × Nat) ≠ (1, 2) ∧
    (add_edge id (run id id [Op.addV 1, Op.addV 2, Op.addV 3, Op.addE 1 2 12]) 1 3 12 =
        (Result.error ErrorType.EDGE_ALREADY_EXISTS,
         run id id [Op.addV 1, Op.addV 2, Op.addV 3, Op.addE 1 2 12]) ∧
      get_edge (run id id [Op.addV 1, Op.addV 2, Op.addV 3, Op.addE 1 2 12]) 12 =
        Result.success { from_id := 1, to_id := 2, edge := 12 }) :=
  ⟨by decide, by decide,
    C3_add_edge_conflict id (run id id [Op.addV 1, Op.addV 2, Op.addV 3, Op.addE 1 2 12])
      1 2 1 3 12 (by decide) (by decide) (by decide) (by decide)⟩

/-- C4: `delete_vertex(id)` yields `ABSENT_VERTX` when `id` is unknown, leaves the
state unchanged with `VERTEX_NOT_FREE` when the vertex exists but has a non-empty
incoming or outgoing set, and otherwise succeeds with `id`, removing the vertex from
the vertex table and the adjacency index. -/
theorem C4_delete_vertex_cases {V E : Type} (g : DirectedGraph V E) (id : Nat) :
    (g.vertex_index id = none →
      delete_vertex g id = (Result.error ErrorType.ABSENT_VERTX, g)) ∧
    (∀ v es, g.vertex_index id = some v → g.adjacency_list id = some es →
      (es.incoming_edges ≠ ∅ ∨ es.outgoing_edges ≠ ∅) →
      delete_vertex g id = (Result.error ErrorType.VERTEX_NOT_FREE, g)) ∧
    (∀ v es, g.vertex_index id = some v → g.adjacency_list id = some es →
      es.incoming_edges = ∅ → es.outgoing_edges = ∅ →
      delete_vertex g id =
        (Result.success id,
          { g with
            vertex_index := mapErase g.vertex_index id,
            adjacency_list := mapErase g.adjacency_list id })) := by
  refine ⟨?_, ?_, ?_⟩
  · intro hz
    unfold delete_vertex
    rw [hz]
    rfl
  · intro v es hv hes hne
    unfold delete_vertex
    rw [hv]
    simp only [Option.isSome_some, if_true, hes]
    have hnot : ¬(es.incoming_edges = ∅ ∧ es.outgoing_edges = ∅) := by
      intro hcon
      rcases hne with hx | hx
      · exact hx hcon.1
      · exact hx hcon.2
    rw [if_neg hnot]
  · intro v es hv hes hi ho
    unfold delete_vertex
    rw [hv]
    simp only [Option.isSome_some, if_true, hes]
    rw [if_pos ⟨hi, ho⟩]

/-- C4 witness: the three branches exercised on concrete graphs — an empty graph
(unknown id), the graph `{1, 2, 1→2}` (vertex `1` not free), and the single-vertex
graph `{1}` (successful deletion). -/
theorem C4_delete_vertex_cases_witness :
    delete_vertex (run id id ([] : List (Op Nat Nat))) 5 =
      (Result.error ErrorType.ABSENT_VERTX, run id id ([] : List (Op Nat Nat))) ∧
    delete_vertex (run id id [Op.addV 1, Op.addV 2, Op.addE 1 2 12]) 1 =
      (Result.error ErrorType.VERTEX_NOT_FREE,
       run id id [Op.addV 1, Op.addV 2, Op.addE 1 2 12]) ∧
    delete_vertex (run id id [Op.addV 1]) 1 =
      (Result.success 1,
        { run id id [Op.addV 1] with
          vertex_index := mapErase (run id id [Op.addV 1]).vertex_index 1,
          adjacency_list := mapErase (run id id [Op.addV 1]).adjacency_list 1 }) :=
  ⟨(C4_delete_vertex_cases (run id id ([] : List (Op Nat Nat))) 5).1 (by decide),
   (C4_delete_vertex_cases (run id id [Op.addV 1, Op.addV 2, Op.addE 1 2 12]) 1).2.1
     1 { incoming_edges := ∅, outgoing_edges := {12} }
     (by decide) (by decide) (by decide),
   (C4_delete_vertex_cases (run id id [Op.addV 1]) 1).2.2
     1 { incoming_edges := ∅, outgoing_edges := ∅ }
     (by decide) (by decide) (by decide) (by decide)⟩

/-- C5: in every state reachable from the empty graph, each stored edge id sits in
the outgoing set of exactly its record's `from_id` entry and the incoming set of
exactly its record's `to_id` entry, and both endpoints are in the vertex table. -/
theorem C5_reachable_adjacency_invariant {V E : Type} (hashV : V → Nat)
    (hashE : E → Nat) (ops : List (Op V E)) (eid : Nat) (rec0 : Edge E)
    (he : (run hashV hashE ops).edge_index eid = some rec0) :
    ((run hashV hashE ops).vertex_index rec0.from_id).isSome = true ∧
    ((run hashV hashE ops).vertex_index rec0.to_id).isSome = true ∧
    (∃ esf, (run hashV hashE ops).adjacency_list rec0.from_id = some esf ∧
      eid ∈ esf.outgoing_edges) ∧
    (∃ est, (run hashV hashE ops).adjacency_list rec0.to_id = some est ∧
      eid ∈ est.incoming_edges) ∧
    (∀ vid es, (run hashV hashE ops).adjacency_list vid = some es →
      (eid ∈ es.outgoing_edges → vid = rec0.from_id) ∧
      (eid ∈ es.incoming_edges → vid = rec0.to_id)) := by
  have h := wf_run hashV hashE ops
  obtain ⟨esf, hF⟩ := Option.isSome_iff_exists.mp
    ((h.keys rec0.from_id).mp (h.ends_from eid rec0 he))
  obtain ⟨est, hT⟩ := Option.isSome_iff_exists.mp
    ((h.keys rec0.to_id).mp (h.ends_to eid rec0 he))
  refine ⟨h.ends_from eid rec0 he, h.ends_to eid rec0 he, ?_, ?_, ?_⟩
  · exact ⟨esf, hF, (h.out_iff eid rec0 rec0.from_id esf he hF).mpr rfl⟩
  · exact ⟨est, hT, (h.in_iff eid rec0 rec0.to_id est he hT).mpr rfl⟩
  · intro vid es hes
    exact ⟨fun hm => (h.out_iff eid rec0 vid es he hes).mp hm,
           fun hm => (h.in_iff eid rec0 vid es he hes).mp hm⟩

/-- C5 witness: the invariant instantiated on the reachable graph `{1, 2, 1→2}` at
the stored edge `12`. -/
theorem C5_reachable_adjacency_invariant_witness :
    (run id id [Op.addV 1, Op.addV 2, Op.addE 1 2 12]).edge_index 12 =
      some { from_id := 1, to_id := 2, edge := 12 } ∧
    (((run id id [Op.addV 1, Op.addV 2, Op.addE 1 2 12]).vertex_index
        ({ from_id := 1, to_id := 2, edge := 12 } : Edge Nat).from_id).isSome = true ∧
     ((run id id [Op.addV 1, Op.addV 2, Op.addE 1 2 12]).vertex_index
        ({ from_id := 1, to_id := 2, edge := 12 } : Edge Nat).to_id).isSome = true ∧
     (∃ esf, (run id id [Op.addV 1, Op.addV 2, Op.addE 1 2 12]).adjacency_list
        ({ from_id := 1, to_id := 2, edge := 12 } : Edge Nat).from_id = some esf ∧
        12 ∈ esf.outgoing_edges) ∧
     (∃ est, (run id id [Op.addV 1, Op.addV 2, Op.addE 1 2 12]).adjacency_list
        ({ from_id := 1, to_id := 2, edge := 12 } : Edge Nat).to_id = some est ∧
        12 ∈ est.incoming_edges) ∧
     (∀ vid es, (run id id [Op.addV 1, Op.addV 2, Op.addE 1 2 12]).adjacency_list vid =
        some es →
        (12 ∈ es.outgoing_edges →
          vid = ({ from_id := 1, to_id := 2, edge := 12 } : Edge Nat).from_id) ∧
        (12 ∈ es.incoming_edges →
          vid = ({ from_id := 1, to_id := 2, edge := 12 } : Edge Nat).to_id))) :=
  ⟨by decide,
   C5_reachable_adjacency_invariant id id [Op.addV 1, Op.addV 2, Op.addE 1 2 12]
     12 { from_id := 1, to_id := 2, edge := 12 } (by decide)⟩

/-- C6: in any well-formed state with vertices `a` and `b` present, immediately
after a successful `add_edge(a, b, e)` the children of `a` contain `b`, the parents
of `b` contain `a`, the outgoing edges of `a` contain `hash(e)` and the incoming
edges of `b` contain `hash(e)`. -/
theorem C6_add_edge_symmetry {V E : Type} (hashE : E → Nat) (g : DirectedGraph V E)
    (a b : Nat) (e : E) (h : WF g)
    (ha : (g.vertex_index a).isSome = true) (hb : (g.vertex_index b).isSome = true)
    (hsucc : (add_edge hashE g a b e).1.is_ok = true) :
    (∃ s, get_children (add_edge hashE g a b e).2 a = Except.ok (Result.success s) ∧
      b ∈ s) ∧
    (∃ s, get_parents (add_edge hashE g a b e).2 b = Except.ok (Result.success s) ∧
      a ∈ s) ∧
    (∃ s, get_outgoing_edges (add_edge hashE g a b e).2 a = Result.success s ∧
      hashE e ∈ s) ∧
    (∃ s, get_incoming_edges (add_edge hashE g a b e).2 b = Result.success s ∧
      hashE e ∈ s) := by
  have hwf' := wf_add_edge hashE g a b e h
  cases hedge : g.edge_index (hashE e) with
  | none =>
      have hEQ := add_edge_insert_eq hashE g a b e ha hb hedge
      have hrec : (add_edge hashE g a b e).2.edge_index (hashE e) =
          some { from_id := a, to_id := b, edge := e } := by
        rw [hEQ]
        simp [mapInsert_apply]
      exact wf_edge_queries (add_edge hashE g a b e).2 hwf' (hashE e)
        { from_id := a, to_id := b, edge := e } hrec
  | some rec0 =>
      have hmatch : rec0.from_id = a ∧ rec0.to_id = b := by
        by_contra hcon
        rw [not_and_or] at hcon
        have herr : (add_edge hashE g a b e).1 =
            Result.error ErrorType.EDGE_ALREADY_EXISTS := by
          unfold add_edge
          rw [if_pos ⟨ha, hb⟩]
          simp only [hedge]
          rw [if_pos hcon]
        rw [herr] at hsucc
        simp [Result.is_ok, Result.error] at hsucc
      have hstate : (add_edge hashE g a b e).2 = g := by
        unfold add_edge
        rw [if_pos ⟨ha, hb⟩]
        simp only [hedge]
        split <;> rfl
      have hrec' : (add_edge hashE g a b e).2.edge_index (hashE e) = some rec0 := by
        rw [hstate]
        exact hedge
      have hq := wf_edge_queries (add_edge hashE g a b e).2 hwf' (hashE e) rec0 hrec'
      rw [hmatch.1, hmatch.2] at hq
      exact hq

/-- C6 witness: a fresh edge `1→2` with payload `12` added to the reachable graph
`{1, 2}`. -/
theorem C6_add_edge_symmetry_witness :
    WF (run id id [Op.addV 1, Op.addV 2]) ∧
    ((run id id [Op.addV 1, Op.addV 2]).vertex_index 1).isSome = true ∧
    ((run id id [Op.addV 1, Op.addV 2]).vertex_index 2).isSome = true ∧
    (add_edge id (run id id [Op.addV 1, Op.addV 2]) 1 2 12).1.is_ok = true ∧
    ((∃ s, get_children (add_edge id (run id id [Op.addV 1, Op.addV 2]) 1 2 12).2 1 =
        Except.ok (Result.success s) ∧ 2 ∈ s) ∧
     (∃ s, get_parents (add_edge id (run id id [Op.addV 1, Op.addV 2]) 1 2 12).2 2 =
        Except.ok (Result.success s) ∧ 1 ∈ s) ∧
     (∃ s, get_outgoing_edges
        (add_edge id (run id id [Op.addV 1, Op.addV 2]) 1 2 12).2 1 =
        Result.success s ∧ 12 ∈ s) ∧
     (∃ s, get_incoming_edges
        (add_edge id (run id id [Op.addV 1, Op.addV 2]) 1 2 12).2 2 =
        Result.success s ∧ 12 ∈ s)) :=
  ⟨wf_run id id [Op.addV 1, Op.addV 2], by decide, by decide, by decide,
   C6_add_edge_symmetry id (run id id [Op.addV 1, Op.addV 2]) 1 2 12
     (wf_run id id [Op.addV 1, Op.addV 2]) (by decide) (by decide) (by decide)⟩

/-- C8: in every reachable state, each adjacency query on a vertex id missing from
the vertex table returns `ABSENT_VERTX`, and on a present vertex whose two adjacency
sets are empty returns success with the empty set. -/
theorem C8_absent_and_isolated_queries {V E : Type} (hashV : V → Nat)
    (hashE : E → Nat) (ops : List (Op V E)) (id : Nat) :
    ((run hashV hashE ops).vertex_index id = none →
      get_children (run hashV hashE ops) id =
        Except.ok (Result.error ErrorType.ABSENT_VERTX) ∧
      get_parents (run hashV hashE ops) id =
        Except.ok (Result.error ErrorType.ABSENT_VERTX) ∧
      get_neighbours (run hashV hashE ops) id =
        Except.ok (Result.error ErrorType.ABSENT_VERTX) ∧
      get_outgoing_edges (run hashV hashE ops) id =
        Result.error ErrorType.ABSENT_VERTX ∧
      get_incoming_edges (run hashV hashE ops) id =
        Result.error ErrorType.ABSENT_VERTX) ∧
    (∀ v es, (run hashV hashE ops).vertex_index id = some v →
      (run hashV hashE ops).adjacency_list id = some es →
      es.incoming_edges = ∅ → es.outgoing_edges = ∅ →
      get_children (run hashV hashE ops) id =
        Except.ok (Result.success (∅ : Finset Nat)) ∧
      get_parents (run hashV hashE ops) id =
        Except.ok (Result.success (∅ : Finset Nat)) ∧
      get_neighbours (run hashV hashE ops) id =
        Except.ok (Result.success (∅ : Finset Nat)) ∧
      get_outgoing_edges (run hashV hashE ops) id =
        Result.success (∅ : Finset Nat) ∧
      get_incoming_edges (run hashV hashE ops) id =
        Result.success (∅ : Finset Nat)) := by
  have h := wf_run hashV hashE ops
  constructor
  · intro hz
    have hadj : (run hashV hashE ops).adjacency_list id = none := by
      have hks := h.keys id
      rw [hz] at hks
      simp only [Option.isSome_none, Bool.false_eq_true, false_iff] at hks
      exact Option.not_isSome_iff_eq_none.mp hks
    refine ⟨?_, ?_, ?_, ?_, ?_⟩
    · unfold get_children
      rw [hadj]
    · unfold get_parents
      rw [hadj]
    · unfold get_neighbours
      rw [hadj]
    · unfold get_outgoing_edges
      rw [hadj]
    · unfold get_incoming_edges
      rw [hadj]
  · intro v es hv hes hi ho
    refine ⟨?_, ?_, ?_, ?_, ?_⟩
    · rw [get_children_some (run hashV hashE ops) id es hes, ho, atImage_empty]
      rfl
    · rw [get_parents_some (run hashV hashE ops) id es hes, hi, atImage_empty]
      rfl
    · rw [get_neighbours_some (run hashV hashE ops) id es hes, hi, ho,
        atImage_empty, atImage_empty]
      show Except.ok (Result.success (∅ ∪ ∅ : Finset Nat)) = _
      rw [Finset.union_empty]
    · rw [get_outgoing_edges_some (run hashV hashE ops) id es hes, ho]
    · rw [get_incoming_edges_some (run hashV hashE ops) id es hes, hi]

/-- C8 witness: in the reachable graph `{1}`, queries on the never-inserted id
`2001` return `ABSENT_VERTX` and queries on the isolated vertex `1` return empty
sets. -/
theorem C8_absent_and_isolated_queries_witness :
    ((run id id [Op.addV 1]).vertex_index 2001 = none ∧
     (get_children (run id id [Op.addV 1]) 2001 =
        Except.ok (Result.error ErrorType.ABSENT_VERTX) ∧
      get_parents (run id id [Op.addV 1]) 2001 =
        Except.ok (Result.error ErrorType.ABSENT_VERTX) ∧
      get_neighbours (run id id [Op.addV 1]) 2001 =
        Except.ok (Result.error ErrorType.ABSENT_VERTX) ∧
      get_outgoing_edges (run id id [Op.addV 1]) 2001 =
        Result.error ErrorType.ABSENT_VERTX ∧
      get_incoming_edges (run id id [Op.addV 1]) 2001 =
        Result.error ErrorType.ABSENT_VERTX)) ∧
    ((run id id [Op.addV 1]).vertex_index 1 = some 1 ∧
     (run id id [Op.addV 1]).adjacency_list 1 =
       some { incoming_edges := ∅, outgoing_edges := ∅ } ∧
     (get_children (run id id [Op.addV 1]) 1 =
        Except.ok (Result.success (∅ : Finset Nat)) ∧
      get_parents (run id id [Op.addV 1]) 1 =
        Except.ok (Result.success (∅ : Finset Nat)) ∧
      get_neighbours (run id id [Op.addV 1]) 1 =
        Except.ok (Result.success (∅ : Finset Nat)) ∧
      get_outgoing_edges (run id id [Op.addV 1]) 1 =
        Result.success (∅ : Finset Nat) ∧
      get_incoming_edges (run id id [Op.addV 1]) 1 =
        Result.success (∅ : Finset Nat))) :=
  ⟨⟨by decide,
    (C8_absent_and_isolated_queries id id [Op.addV 1] 2001).1 (by decide)⟩,
   ⟨by decide, by decide,
    (C8_absent_and_isolated_queries id id [Op.addV 1] 1).2
      1 { incoming_edges := ∅, outgoing_edges := ∅ }
      (by decide) (by decide) (by decide) (by decide)⟩⟩

/-- C9 counterexample: the claim asserts that after adding a self-loop on a present
vertex `v` and then deleting it, `delete_vertex(v)` succeeds — for EVERY graph state
with `v` present and `hash(e)` fresh.  On the reachable graph `{1, 2, 2→1 (id 21)}`
vertex `1` satisfies those hypotheses (`1` is present, edge id `11` is fresh), the
self-loop is accepted and removed, yet `delete_vertex(1)` still fails with
`VERTEX_NOT_FREE` because the unrelated incident edge `21` remains. -/
theorem C9_self_loop_counterexample :
    (run id id [Op.addV 1, Op.addV 2, Op.addE 2 1 21]).vertex_index 1 = some 1 ∧
    (run id id [Op.addV 1, Op.addV 2, Op.addE 2 1 21]).edge_index 11 = none ∧
    (add_edge id (run id id [Op.addV 1, Op.addV 2, Op.addE 2 1 21]) 1 1 11).1 =
      Result.success 11 ∧
    (delete_edge
      (add_edge id (run id id [Op.addV 1, Op.addV 2, Op.addE 2 1 21]) 1 1 11).2
      11).1 = Result.success 11 ∧
    (delete_vertex
      (delete_edge
        (add_edge id (run id id [Op.addV 1, Op.addV 2, Op.addE 2 1 21]) 1 1 11).2
        11).2 1).1 = Result.error ErrorType.VERTEX_NOT_FREE := by
  decide

/-- C9 (amended): with vertex `v` present, `hash(e)` fresh, and — as the
counterexample forces — no other edge incident to `v` (both adjacency sets of `v`
empty), `add_edge(v, v, e)` succeeds with `hash(e)`, the id lands in both the
outgoing and the incoming set of `v`, `delete_vertex(v)` then fails with
`VERTEX_NOT_FREE`, and after `delete_edge(hash(e))` it succeeds. -/
theorem C9_self_loop_amended {V E : Type} (hashE : E → Nat) (g : DirectedGraph V E)
    (v : Nat) (pv : V) (e : E)
    (hv : g.vertex_index v = some pv)
    (hadj : g.adjacency_list v = some { incoming_edges := ∅, outgoing_edges := ∅ })
    (hnone : g.edge_index (hashE e) = none) :
    (add_edge hashE g v v e).1 = Result.success (hashE e) ∧
    (∃ es, (add_edge hashE g v v e).2.adjacency_list v = some es ∧
      hashE e ∈ es.outgoing_edges ∧ hashE e ∈ es.incoming_edges) ∧
    delete_vertex (add_edge hashE g v v e).2 v =
      (Result.error ErrorType.VERTEX_NOT_FREE, (add_edge hashE g v v e).2) ∧
    (delete_edge (add_edge hashE g v v e).2 (hashE e)).1 = Result.success (hashE e) ∧
    (delete_vertex (delete_edge (add_edge hashE g v v e).2 (hashE e)).2 v).1 =
      Result.success v := by
  have hvs : (g.vertex_index v).isSome = true := by rw [hv]; rfl
  have hEQ := add_edge_insert_eq hashE g v v e hvs hvs hnone
  have hadjF1 : (add_edge hashE g v v e).2.adjacency_list =
      adjUpdate
        (adjUpdate g.adjacency_list v fun es =>
          { es with outgoing_edges := insert (hashE e) es.outgoing_edges })
        v (fun es =>
          { es with incoming_edges := insert (hashE e) es.incoming_edges }) := by
    rw [hEQ]
  have hadj1 : (add_edge hashE g v v e).2.adjacency_list v =
      some { incoming_edges := {hashE e}, outgoing_edges := {hashE e} } := by
    rw [hadjF1,
      adjUpdate2_some g.adjacency_list v v
        (fun es => { es with outgoing_edges := insert (hashE e) es.outgoing_edges })
        (fun es => { es with incoming_edges := insert (hashE e) es.incoming_edges })
        { incoming_edges := ∅, outgoing_edges := ∅ }
        { incoming_edges := ∅, outgoing_edges := ∅ } hadj hadj v
        { incoming_edges := ∅, outgoing_edges := ∅ } hadj]
    simp
  have hviF1 : (add_edge hashE g v v e).2.vertex_index = g.vertex_index := by
    rw [hEQ]
  have hvi1 : (add_edge hashE g v v e).2.vertex_index v = some pv := by
    rw [hviF1]
    exact hv
  have hei1 : (add_edge hashE g v v e).2.edge_index (hashE e) =
      some { from_id := v, to_id := v, edge := e } := by
    have heiF : (add_edge hashE g v v e).2.edge_index =
        mapInsert g.edge_index (hashE e) { from_id := v, to_id := v, edge := e } := by
      rw [hEQ]
    rw [heiF]
    simp [mapInsert_apply]
  have hDEQ : delete_edge (add_edge hashE g v v e).2 (hashE e) =
      (Result.success (hashE e),
        { (add_edge hashE g v v e).2 with
          edge_index := mapErase (add_edge hashE g v v e).2.edge_index (hashE e),
          adjacency_list :=
            adjUpdate
              (adjUpdate (add_edge hashE g v v e).2.adjacency_list v fun es =>
                { es with outgoing_edges := es.outgoing_edges.erase (hashE e) })
              v (fun es =>
                { es with incoming_edges := es.incoming_edges.erase (hashE e) }) }) := by
    exact delete_edge_eq (add_edge hashE g v v e).2 (hashE e)
      { from_id := v, to_id := v, edge := e } hei1
  have hadj2 : (delete_edge (add_edge hashE g v v e).2 (hashE e)).2.adjacency_list v =
      some { incoming_edges := ∅, outgoing_edges := ∅ } := by
    have hadjF2 : (delete_edge (add_edge hashE g v v e).2 (hashE e)).2.adjacency_list =
        adjUpdate
          (adjUpdate (add_edge hashE g v v e).2.adjacency_list v fun es =>
            { es with outgoing_edges := es.outgoing_edges.erase (hashE e) })
          v (fun es =>
            { es with incoming_edges := es.incoming_edges.erase (hashE e) }) := by
      rw [hDEQ]
    rw [hadjF2,
      adjUpdate2_some (add_edge hashE g v v e).2.adjacency_list v v
        (fun es => { es with outgoing_edges := es.outgoing_edges.erase (hashE e) })
        (fun es => { es with incoming_edges := es.incoming_edges.erase (hashE e) })
        { incoming_edges := {hashE e}, outgoing_edges := {hashE e} }
        { incoming_edges := {hashE e}, outgoing_edges := {hashE e} } hadj1 hadj1 v
        { incoming_edges := {hashE e}, outgoing_edges := {hashE e} } hadj1]
    simp
  have hvi2 : (delete_edge (add_edge hashE g v v e).2 (hashE e)).2.vertex_index v =
      some pv := by
    have hviF2 : (delete_edge (add_edge hashE g v v e).2 (hashE e)).2.vertex_index =
        (add_edge hashE g v v e).2.vertex_index := by
      rw [hDEQ]
    rw [hviF2]
    exact hvi1
  refine ⟨?_, ?_, ?_, ?_, ?_⟩
  · rw [hEQ]
  · exact ⟨{ incoming_edges := {hashE e}, outgoing_edges := {hashE e} }, hadj1,
      Finset.mem_singleton_self (hashE e), Finset.mem_singleton_self (hashE e)⟩
  · exact delete_vertex_not_free (add_edge hashE g v v e).2 v pv
      { incoming_edges := {hashE e}, outgoing_edges := {hashE e} } hvi1 hadj1
      (by simp)
  · rw [hDEQ]
  · rw [delete_vertex_free (delete_edge (add_edge hashE g v v e).2 (hashE e)).2 v pv
      { incoming_edges := ∅, outgoing_edges := ∅ } hvi2 hadj2 rfl rfl]

/-- C9 (amended) witness: the isolated vertex `1` in the reachable graph `{1}`,
self-loop payload `11`. -/
theorem C9_self_loop_amended_witness :
    (run id id [Op.addV 1]).vertex_index 1 = some 1 ∧
    (run id id [Op.addV 1]).adjacency_list 1 =
      some { incoming_edges := ∅, outgoing_edges := ∅ } ∧
    (run id id [Op.addV 1]).edge_index 11 = none ∧
    ((add_edge id (run id id [Op.addV 1]) 1 1 11).1 = Result.success 11 ∧
     (∃ es, (add_edge id (run id id [Op.addV 1]) 1 1 11).2.adjacency_list 1 =
        some es ∧ 11 ∈ es.outgoing_edges ∧ 11 ∈ es.incoming_edges) ∧
     delete_vertex (add_edge id (run id id [Op.addV 1]) 1 1 11).2 1 =
       (Result.error ErrorType.VERTEX_NOT_FREE,
        (add_edge id (run id id [Op.addV 1]) 1 1 11).2) ∧
     (delete_edge (add_edge id (run id id [Op.addV 1]) 1 1 11).2 11).1 =
       Result.success 11 ∧
     (delete_vertex (delete_edge (add_edge id (run id id [Op.addV 1]) 1 1 11).2 11).2
        1).1 = Result.success 1) :=
  ⟨by decide, by decide, by decide,
   C9_self_loop_amended id (run id id [Op.addV 1]) 1 1 11
     (by decide) (by decide) (by decide)⟩

/-- C10: `add_edge` compares only the stored endpoint binding, never the stored
payload: when the edge table maps `hash(e)` to `{a, b, e}` in a well-formed state,
`add_edge(a, b, e')` for any payload `e'` with `hash(e') = hash(e)` returns success
with that id and the state — in particular the stored payload `e` — is unchanged. -/
theorem C10_add_edge_ignores_payload {V E : Type} (hashE : E → Nat)
    (g : DirectedGraph V E) (a b : Nat) (e e' : E) (h : WF g)
    (hrec : g.edge_index (hashE e) = some { from_id := a, to_id := b, edge := e })
    (hhash : hashE e' = hashE e) :
    add_edge hashE g a b e' = (Result.success (hashE e), g) ∧
    get_edge g (hashE e') =
      Result.success { from_id := a, to_id := b, edge := e } := by
  have ha : (g.vertex_index a).isSome = true := by
    simpa using h.ends_from (hashE e) { from_id := a, to_id := b, edge := e } hrec
  have hb : (g.vertex_index b).isSome = true := by
    simpa using h.ends_to (hashE e) { from_id := a, to_id := b, edge := e } hrec
  constructor
  · unfold add_edge
    rw [if_pos ⟨ha, hb⟩]
    simp only [hhash, hrec]
    rw [if_neg (by simp)]
  · unfold get_edge
    rw [hhash, hrec]

/-- C10 witness: with the constant hash `fun _ => 7` on edge payloads, the reachable
graph `{1, 2, 1→2 (payload 5, id 7)}` accepts a re-add of the same binding with the
different payload `99` (same hash), returning id `7` and leaving the state — and the
stored payload `5` — untouched. -/
theorem C10_add_edge_ignores_payload_witness :
    (run (fun v => v) (fun _ => 7)
        [Op.addV 1, Op.addV 2, Op.addE 1 2 5]).edge_index 7 =
      some { from_id := 1, to_id := 2, edge := 5 } ∧
    (7 : Nat) = 7 ∧
    (add_edge (fun _ => 7)
        (run (fun v => v) (fun _ => 7) [Op.addV 1, Op.addV 2, Op.addE 1 2 5])
        1 2 99 =
      (Result.success 7,
       run (fun v => v) (fun _ => 7) [Op.addV 1, Op.addV 2, Op.addE 1 2 5]) ∧
     get_edge (run (fun v => v) (fun _ => 7) [Op.addV 1, Op.addV 2, Op.addE 1 2 5])
        7 = Result.success { from_id := 1, to_id := 2, edge := 5 }) :=
  ⟨by decide, rfl,
   C10_add_edge_ignores_payload (fun _ => 7)
     (run (fun v => v) (fun _ => 7) [Op.addV 1, Op.addV 2, Op.addE 1 2 5])
     1 2 5 99
     (wf_run (fun v => v) (fun _ => 7) [Op.addV 1, Op.addV 2, Op.addE 1 2 5])
     (by decide) rfl⟩

end cgrapht
